import Mathlib

/-!
Shallow embedding of drgn's `libdrgn/program.c` (target bootstrap and
address-translation layer), and proofs about it.

Conventions:
* C `uint64_t` values are `Nat` with explicit `% U64` (or `usub`) wherever the
  C arithmetic can wrap.
* Byte buffers (`const char *desc` etc.) are `List Nat`, each element a byte
  value `< 256`; paths and note names are byte lists as well.
* Fallible C routines returning `struct drgn_error *` become `Except DrgnError`
  or, where the C code can commit undefined behavior, `CResult`.
* Helpers of this repository that live outside `program.c` (`read.h`'s
  `read_u64`/`read_in_bounds`/`read_string`, `struct vmcoreinfo`'s buffer size)
  are modelled from the specification, and are marked as such.
-/

set_option autoImplicit false

deriving instance DecidableEq for Except

namespace Drgn

/-- Modulus of C `uint64_t` arithmetic. -/
def U64 : Nat := 2 ^ 64

/-- Wrapping `uint64_t` subtraction `a - b` for `a, b < U64`. -/
def usub (a b : Nat) : Nat := if b ≤ a then a - b else a + U64 - b

/-- The error kinds of `enum drgn_error_code` that this layer uses
(`drgn_stop` is the sentinel `&drgn_stop`). -/
inductive DrgnError where
  | stop
  | enomem
  | other
  | elfFormat
  | overflow
  | invalidArgument
  | lookup
  | libelf
  | missingDebug
  | fault
  | osError
  | notElf
  deriving DecidableEq, Repr

/-- Outcome of running a C routine: a normal result, an error return, or
undefined behavior (e.g. an out-of-bounds array access). -/
inductive CResult (α : Type) where
  | ok (val : α)
  | error (e : DrgnError)
  | ub
  deriving DecidableEq, Repr

/-- `struct file_mapping`: `{start, end, file_offset, path, elf}`.  The `elf`
handle (an `Elf *` in C) is a numeric handle here; `append_file_mapping` never
initializes it, which we model as handle `0`. -/
structure FileMapping where
  start : Nat
  end_ : Nat
  file_offset : Nat
  path : List Nat
  elf : Nat
  deriving DecidableEq, Repr

/-- The merge test of `append_file_mapping` on the last mapping of the table
against an incoming `(start, file_offset, path)`:
`mapping->end == start && mapping->file_offset + length == file_offset &&
strcmp(mapping->path, path) == 0`, all in `uint64_t`. -/
def mergeCondB (last : FileMapping) (start file_offset : Nat) (path : List Nat) : Bool :=
  last.end_ == start &&
    (last.file_offset + usub last.end_ last.start) % U64 == file_offset &&
    last.path == path

/-- Relation form of `mergeCondB` between two consecutive table entries. -/
def notMergeable (a b : FileMapping) : Prop :=
  mergeCondB a b.start b.file_offset b.path = false

instance (a b : FileMapping) : Decidable (notMergeable a b) := by
  unfold notMergeable; infer_instance

/-- `append_file_mapping` (program.c:488).  Returns the pair of the C error
return (`NULL`, `&drgn_stop`, or an error) and the resulting mapping table.
Note the `start == end` branch returns `NULL` without appending anything, and
the `start > end` branch returns a `DRGN_ERROR_OTHER` error. -/
def append_file_mapping (start end_ file_offset : Nat) (path : List Nat)
    (table : List FileMapping) : Option DrgnError × List FileMapping :=
  if start > end_ then (some .other, table)
  else if start = end_ then (none, table)
  else
    match table.getLast? with
    | some last =>
      if mergeCondB last start file_offset path then
        (some .stop, table.dropLast ++ [{ last with end_ := end_ }])
      else
        (none, table ++ [⟨start, end_, file_offset, path, 0⟩])
    | none => (none, table ++ [⟨start, end_, file_offset, path, 0⟩])

/-- One iteration of the `parse_nt_file` loop after the words of an entry and
its path have been read (program.c:586-603): call `append_file_mapping`; when
it returns `NULL` the code assumes a mapping was appended and overwrites
`(*mappings)[*num_mappings - 1].path` with a fresh copy of `path` — on an
empty table this indexes `(*mappings)[SIZE_MAX]`, which is undefined
behavior. -/
def nt_file_step (start end_ file_offset : Nat) (path : List Nat)
    (table : List FileMapping) : CResult (List FileMapping) :=
  match append_file_mapping start end_ file_offset path table with
  | (some DrgnError.stop, t) => .ok t
  | (some e, _) => .error e
  | (none, t) =>
    match t.getLast? with
    | none => .ub
    | some last => .ok (t.dropLast ++ [{ last with path := path }])

/-- Little-endian value of a byte list (least significant byte first). -/
def leVal : List Nat → Nat
  | [] => 0
  | b :: r => b + 256 * leVal r

/-- Modelled from the spec: `read_u64` of `read.h` (not under src/) reads a
fixed-width little-endian 8-byte integer from a bounded byte slice with a
bounds check ("Binary Readers", spec §2; `bswap` is false in `parse_nt_file`). -/
def read_u64le (l : List Nat) : Option (Nat × List Nat) :=
  if 8 ≤ l.length then some (leVal (l.take 8), l.drop 8) else none

/-- Modelled from the spec: `read_u32_into_u64` of `read.h` (not under src/),
a 4-byte little-endian read widened to 64 bits. -/
def read_u32le (l : List Nat) : Option (Nat × List Nat) :=
  if 4 ≤ l.length then some (leVal (l.take 4), l.drop 4) else none

/-- Split a byte list at the first occurrence of byte `t` (the shape of
`memchr`): returns the bytes before `t` and the bytes after it. -/
def splitFirst (t : Nat) : List Nat → Option (List Nat × List Nat)
  | [] => none
  | b :: r =>
    if b = t then some ([], r)
    else
      match splitFirst t r with
      | none => none
      | some (l, rest) => some (b :: l, rest)

/-- Modelled from the spec: `read_string` of `read.h` (not under src/) extracts
a NUL-terminated string from a bounded byte slice, returning the string, its
length, and the remainder after the NUL; it fails if no NUL is in bounds. -/
def read_string (l : List Nat) : Option (List Nat × Nat × List Nat) :=
  match splitFirst 0 l with
  | none => none
  | some (s, rest) => some (s, s.length, rest)

/-- The entry loop of `parse_nt_file` (program.c:567-604): `count` entries of
three words each are read from `p` (already bounds-checked), the file offset
is scaled by `page_size` in `uint64_t`, the path is read from `q`, and the
entry is handed to `append_file_mapping` with the path fix-up of
`nt_file_step`. -/
def nt_file_loop (is64 : Bool) (page_size : Nat) :
    Nat → List Nat → List Nat → List FileMapping → CResult (List FileMapping)
  | 0, _, _, table => .ok table
  | c + 1, p, q, table =>
    let w := if is64 then 8 else 4
    let start := leVal (p.take w)
    let end_ := leVal ((p.drop w).take w)
    let fo_pages := leVal ((p.drop (2 * w)).take w)
    let file_offset := fo_pages * page_size % U64
    match read_string q with
    | none => .error .elfFormat
    | some (path, _, q') =>
      match nt_file_step start end_ file_offset path table with
      | .ok table' => nt_file_loop is64 page_size c (p.drop (3 * w)) q' table'
      | .error e => .error e
      | .ub => .ub

/-- `parse_nt_file` (program.c:540): read `count` and `page_size` (word size
from the ELF class), check `count * 24` (resp. `* 12`) for `size_t` overflow,
bounds-check the entry array, then run the entry loop with the path cursor `q`
placed after the entries.  Any truncation is `DRGN_ERROR_ELF_FORMAT`. -/
def parse_nt_file (desc : List Nat) (is64 : Bool) (table : List FileMapping) :
    CResult (List FileMapping) :=
  if is64 then
    match read_u64le desc with
    | none => .error .elfFormat
    | some (count, r1) =>
      match read_u64le r1 with
      | none => .error .elfFormat
      | some (page_size, r2) =>
        if count * 24 ≥ U64 then .error .elfFormat
        else if r2.length < count * 24 then .error .elfFormat
        else nt_file_loop true page_size count r2 (r2.drop (count * 24)) table
  else
    match read_u32le desc with
    | none => .error .elfFormat
    | some (count, r1) =>
      match read_u32le r1 with
      | none => .error .elfFormat
      | some (page_size, r2) =>
        if count * 12 ≥ U64 then .error .elfFormat
        else if r2.length < count * 12 then .error .elfFormat
        else nt_file_loop false page_size count r2 (r2.drop (count * 12)) table

/-- Folding a sequence of `append_file_mapping` calls over a table (the table
component only; error returns leave the table unchanged). -/
def applyAppendOps (ops : List (Nat × Nat × Nat × List Nat))
    (table : List FileMapping) : List FileMapping :=
  ops.foldl (fun t op => (append_file_mapping op.1 op.2.1 op.2.2.1 op.2.2.2 t).2) table

/-- `struct vmcoreinfo`: OS release string and KASLR offset. -/
structure Vmcoreinfo where
  osrelease : List Nat
  kaslr_offset : Nat
  deriving DecidableEq, Repr

/-- Modelled from the spec: the size of `vmcoreinfo.osrelease` (declared in
`program.h`, not under src/); the spec bounds the OS release at 64 bytes, so
the NUL-terminated buffer holds 65. -/
def osreleaseBufSize : Nat := 65

/-- C `isspace` on a byte (space and the five control whitespace chars). -/
def isSpaceByte (b : Nat) : Bool := b == 32 || (9 ≤ b && b ≤ 13)

/-- Value of an ASCII hex digit, or `none`. -/
def hexDigit? (b : Nat) : Option Nat :=
  if 48 ≤ b && b ≤ 57 then some (b - 48)
  else if 65 ≤ b && b ≤ 70 then some (b - 55)
  else if 97 ≤ b && b ≤ 102 then some (b - 87)
  else none

/-- Longest prefix of hex digits: their values and the remainder. -/
def hexSpan : List Nat → List Nat × List Nat
  | [] => ([], [])
  | b :: r =>
    match hexDigit? b with
    | none => ([], b :: r)
    | some d => ((hexSpan r).1.cons d, (hexSpan r).2)

/-- Value of a hex digit string, most significant digit first. -/
def hexVal (ds : List Nat) : Nat := ds.foldl (fun a d => a * 16 + d) 0

/-- C `strtoull(s, &nend, 16)` on a byte buffer: skips leading whitespace, an
optional sign, and an optional `0x`/`0X` prefix (only when a hex digit
follows), then the longest run of hex digits.  Returns
`(value, consumed, erange)` where `consumed` is `nend - s` (0 when no digits
were found, per C: `*endptr = nptr`), `erange` signals overflow past
`ULLONG_MAX` (in which case the value is `ULLONG_MAX`), and a `-` sign negates
modulo `2^64`. -/
def strtoull16 (s : List Nat) : Nat × Nat × Bool :=
  let ws := (s.takeWhile isSpaceByte).length
  let s1 := s.drop ws
  let signNeg := s1.headD 0 == 45
  let signLen := if s1.headD 0 == 45 || s1.headD 0 == 43 then 1 else 0
  let s2 := s1.drop signLen
  let preLen :=
    match s2 with
    | 48 :: x :: r =>
      if (x == 120 || x == 88) && (hexDigit? (r.headD 0)).isSome then 2 else 0
    | _ => 0
  let (ds, _) := hexSpan (s2.drop preLen)
  if ds.isEmpty then (0, 0, false)
  else
    let v := hexVal ds
    if v ≥ U64 then (U64 - 1, ws + signLen + preLen + ds.length, true)
    else if signNeg then ((U64 - v % U64) % U64, ws + signLen + preLen + ds.length, false)
    else (v, ws + signLen + preLen + ds.length, false)

/-- The bytes of `"OSRELEASE="`. -/
def osreleaseKey : List Nat := [79, 83, 82, 69, 76, 69, 65, 83, 69, 61]

/-- The bytes of `"KERNELOFFSET="`. -/
def kerneloffsetKey : List Nat := [75, 69, 82, 78, 69, 76, 79, 70, 70, 83, 69, 84, 61]

/-- The line loop of `parse_vmcoreinfo` (program.c:631-662): find the next
newline (`memchr`); stop when none is left; match the `OSRELEASE=` prefix
(length-checked against the destination buffer, `DRGN_ERROR_OTHER` when too
long) or else the `KERNELOFFSET=` prefix (`strtoull` base 16 starting at the
value — note the buffer passed to `strtoull` extends past the newline — with
`ERANGE` mapped to `DRGN_ERROR_OVERFLOW` "too large" and any other failure to
consume exactly up to the newline mapped to `DRGN_ERROR_OVERFLOW` "invalid");
unknown keys are skipped.  At the end an empty OSRELEASE is
`DRGN_ERROR_OTHER`.  `fuel` is for structural termination; the entry point
supplies more fuel than there are lines. -/
def parse_vmcoreinfo_loop : Nat → List Nat → List Nat → Nat → Except DrgnError Vmcoreinfo
  | 0, _, os, k => if os.isEmpty then .error .other else .ok ⟨os, k⟩
  | fuel + 1, desc, os, k =>
    match splitFirst 10 desc with
    | none => if os.isEmpty then .error .other else .ok ⟨os, k⟩
    | some (line, rest) =>
      if osreleaseKey.isPrefixOf line then
        let v := line.drop osreleaseKey.length
        if v.length ≥ osreleaseBufSize then .error .other
        else parse_vmcoreinfo_loop fuel rest v k
      else if kerneloffsetKey.isPrefixOf line then
        let v := line.drop kerneloffsetKey.length
        let r := strtoull16 (v ++ 10 :: rest)
        if r.2.2 then .error .overflow
        else if r.2.1 = 0 ∨ r.2.1 ≠ v.length then .error .overflow
        else parse_vmcoreinfo_loop fuel rest os r.1
      else parse_vmcoreinfo_loop fuel rest os k

/-- `parse_vmcoreinfo` (program.c:624): run the line loop on the descriptor
with `osrelease` empty and `kaslr_offset` zero. -/
def parse_vmcoreinfo (desc : List Nat) : Except DrgnError Vmcoreinfo :=
  parse_vmcoreinfo_loop (desc.length + 1) desc [] 0

/-- `struct drgn_symbol`: the record crossing the relocation boundary.  Fields
other than `address` are modelled from the spec (`symbol_index.h` is not under
src/): name, enumerator flag, endianness, enumerator value. -/
structure DrgnSymbol where
  name : List Nat
  address : Nat
  is_enumerator : Bool
  little_endian : Bool
  uvalue : Nat
  deriving DecidableEq, Repr

/-- ELF `e_type` value `ET_EXEC`. -/
def ET_EXEC : Nat := 2

/-- `kernel_relocation_hook` (program.c:349): for an `ET_EXEC` debug file
(vmlinux) the symbol address is incremented by the KASLR offset in `uint64_t`
and the hook succeeds; any other `e_type` takes the kernel-module branch,
which walks in-kernel data through the external object API and is abstracted
here as the oracle `moduleReloc`. -/
def kernel_relocation_hook (e_type kaslr_offset : Nat)
    (moduleReloc : DrgnSymbol → Except DrgnError DrgnSymbol)
    (sym : DrgnSymbol) : Except DrgnError DrgnSymbol :=
  if e_type = ET_EXEC then
    .ok { sym with address := (sym.address + kaslr_offset) % U64 }
  else moduleReloc sym

/-- An ELF program header, with the fields `userspace_relocation_hook` reads. -/
structure GPhdr where
  p_type : Nat
  p_offset : Nat
  p_vaddr : Nat
  p_memsz : Nat
  deriving DecidableEq, Repr

/-- ELF `p_type` value `PT_LOAD`. -/
def PT_LOAD : Nat := 1

/-- The segment test of `userspace_relocation_hook` (program.c:452-454):
`p_type == PT_LOAD && p_vaddr <= addr && addr < p_vaddr + p_memsz`, the sum in
`uint64_t`. -/
def phdrContains (addr : Nat) (p : GPhdr) : Bool :=
  p.p_type == PT_LOAD && p.p_vaddr ≤ addr && addr < (p.p_vaddr + p.p_memsz) % U64

/-- The file offset computed from a containing `PT_LOAD` header
(program.c:455): `p_offset + addr - p_vaddr` in `uint64_t` (with
`p_vaddr ≤ addr` guaranteed by `phdrContains`). -/
def loadFileOffset (p : GPhdr) (addr : Nat) : Nat :=
  (p.p_offset + (addr - p.p_vaddr)) % U64

/-- The mapping test of `userspace_relocation_hook` (program.c:470-473):
same `elf` handle and
`file_offset ∈ [mapping.file_offset, mapping.file_offset + (end - start))`,
size and sum in `uint64_t`. -/
def mappingContains (elf file_offset : Nat) (m : FileMapping) : Bool :=
  m.elf == elf && m.file_offset ≤ file_offset &&
    file_offset < (m.file_offset + usub m.end_ m.start) % U64

/-- `userspace_relocation_hook` (program.c:433): scan the program headers for
the first `PT_LOAD` segment containing the symbol's address (else `LOOKUP`),
compute the file offset, scan `prog->mappings` for the first mapping of the
same ELF containing that file offset (else `LOOKUP`), and relocate to
`mapping->start + file_offset - mapping->file_offset` in `uint64_t`. -/
def userspace_relocation_hook (phdrs : List GPhdr) (mappings : List FileMapping)
    (elf : Nat) (sym : DrgnSymbol) : Except DrgnError DrgnSymbol :=
  match phdrs.find? (phdrContains sym.address) with
  | none => .error .lookup
  | some p =>
    let file_offset := loadFileOffset p sym.address
    match mappings.find? (mappingContains elf file_offset) with
    | none => .error .lookup
    | some m =>
      .ok { sym with address := (m.start + (file_offset - m.file_offset)) % U64 }

/-- The loop of `drgn_program_read_c_string` (program.c:1676-1699): while
fewer than `max_size` bytes have been stored, read one byte of target memory
(`mem` abstracts `drgn_memory_reader_read`; `none` is a failing read, whose
error aborts the call); a NUL byte read is stored and terminates; once
`max_size` bytes are stored a NUL is appended and the loop terminates.  The
result is the final buffer contents (the capacity-doubling of the C code does
not affect them). -/
def read_c_string_loop (mem : Nat → Option Nat) (address : Nat) :
    Nat → Except DrgnError (List Nat)
  | 0 => .ok [0]
  | remaining + 1 =>
    match mem address with
    | none => .error .fault
    | some b =>
      if b = 0 then .ok [0]
      else
        match read_c_string_loop mem (address + 1) remaining with
        | .ok l => .ok (b :: l)
        | .error e => .error e

/-- `drgn_program_read_c_string` (program.c:1664): read bytes starting at
`address` until a NUL or `max_size` bytes, always returning a NUL-terminated
buffer. -/
def drgn_program_read_c_string (mem : Nat → Option Nat) (address max_size : Nat) :
    Except DrgnError (List Nat) :=
  read_c_string_loop mem address max_size

/-- C `strncmp(a, b, n) == 0`: compare up to `n` bytes, stopping at a NUL;
bytes past the end of a list read as NUL. -/
def strncmpEq : List Nat → List Nat → Nat → Bool
  | _, _, 0 => true
  | a, b, n + 1 =>
    if a.headD 0 ≠ b.headD 0 then false
    else if a.headD 0 = 0 then true
    else strncmpEq a.tail b.tail n

/-- The bytes of `"CORE"`. -/
def coreName : List Nat := [67, 79, 82, 69]

/-- The bytes of `"VMCOREINFO"`. -/
def vmcoreinfoName : List Nat := [86, 77, 67, 79, 82, 69, 73, 78, 70, 79]

/-- `NT_FILE` note type (0x46494c45). -/
def NT_FILE : Nat := 0x46494c45

/-- `NT_TASKSTRUCT` note type. -/
def NT_TASKSTRUCT : Nat := 4

/-- A note from a `PT_NOTE` segment, as delivered by `gelf_getnote`: `name` is
the `n_namesz` bytes of the name, `ntype` is `n_type`, `desc` the descriptor. -/
structure Note where
  name : List Nat
  ntype : Nat
  desc : List Nat
  deriving DecidableEq, Repr

/-- The state accumulated by the note pass of `drgn_program_init_core_dump`.
`progMappings` is `prog->mappings`/`prog->num_mappings`: the code passes
`&prog->mappings` (not the local `mappings` variable) to `parse_nt_file`
(program.c:1238-1239), so parsed NT_FILE entries land here. -/
structure NoteState where
  progMappings : List FileMapping
  have_nt_file : Bool
  have_nt_taskstruct : Bool
  have_vmcoreinfo : Bool
  vmcoreinfo : Vmcoreinfo
  deriving DecidableEq, Repr

/-- Handling of one note in the second phdr pass (program.c:1233-1255): a
`"CORE"` note of type `NT_FILE` is parsed into `prog->mappings`, a `"CORE"`
note of type `NT_TASKSTRUCT` sets a flag, a `"VMCOREINFO"` note is parsed into
the local `vmcoreinfo`; parse failures abort the bootstrap. -/
def process_note (is64 : Bool) (st : NoteState) (n : Note) : CResult NoteState :=
  if strncmpEq n.name coreName n.name.length then
    if n.ntype = NT_FILE then
      match parse_nt_file n.desc is64 st.progMappings with
      | .ok t => .ok { st with progMappings := t, have_nt_file := true }
      | .error e => .error e
      | .ub => .ub
    else if n.ntype = NT_TASKSTRUCT then .ok { st with have_nt_taskstruct := true }
    else .ok st
  else if strncmpEq n.name vmcoreinfoName n.name.length then
    match parse_vmcoreinfo n.desc with
    | .ok v => .ok { st with have_vmcoreinfo := true, vmcoreinfo := v }
    | .error e => .error e
  else .ok st

/-- The note pass over all notes of the core dump, in order. -/
def process_notes (is64 : Bool) : List Note → NoteState → CResult NoteState
  | [], st => .ok st
  | n :: rest, st =>
    match process_note is64 st n with
    | .ok st' => process_notes is64 rest st'
    | .error e => .error e
    | .ub => .ub

/-- Result of `drgn_dwarf_index_open` on one path, as classified by
`open_userspace_files` (program.c:1026-1035). -/
inductive OpenOutcome where
  | ok
  | enoent
  | notElf
  | missingDebug
  | fatal (e : DrgnError)
  deriving DecidableEq, Repr

/-- The loop of `open_userspace_files` (program.c:1015): offer each mapping's
path to the DWARF index; `ENOENT`, not-ELF, and missing-debug failures are
swallowed; any other failure is fatal; if no path succeeded the result is
`DRGN_ERROR_MISSING_DEBUG`.  (`openResult` abstracts `drgn_dwarf_index_open`;
the `mapping->elf` assignment does not affect the returned error.) -/
def open_userspace_files (openResult : List Nat → OpenOutcome) :
    List FileMapping → Bool → Except DrgnError Unit
  | [], success => if success then .ok () else .error .missingDebug
  | m :: rest, success =>
    match openResult m.path with
    | .ok => open_userspace_files openResult rest true
    | .enoent => open_userspace_files openResult rest success
    | .notElf => open_userspace_files openResult rest success
    | .missingDebug => open_userspace_files openResult rest success
    | .fatal e => .error e

/-- The inputs of `drgn_program_init_core_dump` that come from outside
`program.c`: the notes found in the `PT_NOTE` segments and whether any
`PT_LOAD` header has a non-zero `p_paddr` (both read via libelf), the
`fstatfs` procfs-magic test, and oracles for the externally implemented stages
(`/sys` and fallback vmcoreinfo recovery, kernel debug-file discovery, the
DWARF index update, and per-path `drgn_dwarf_index_open` results).  Stages
that can only fail on `malloc` failure are taken to succeed. -/
structure InitEnv where
  notes : List Note
  is64 : Bool
  procfsMagic : Bool
  haveNonZeroPhysAddr : Bool
  sysfsVmcoreinfo : Except DrgnError Vmcoreinfo
  fallbackVmcoreinfo : Except DrgnError Vmcoreinfo
  openKernelResult : Except DrgnError Unit
  dwarfUpdateResult : Except DrgnError Unit
  openResult : List Nat → OpenOutcome

/-- The observable state of a published session: the `IS_LINUX_KERNEL` flag,
`prog->mappings` as left at the successful return, and `prog->vmcoreinfo`
(set only on the kernel branch). -/
structure Session where
  is_linux_kernel : Bool
  mappings : List FileMapping
  vmcoreinfo : Option Vmcoreinfo
  deriving DecidableEq, Repr

/-- `drgn_program_init_core_dump` (program.c:1092) after the header checks,
starting from `prog->mappings = progMappings0` (the field is not initialized
before the note pass appends to it): run the note pass; decide
`is_proc_kcore` (a `VMCOREINFO` note, or an `NT_TASKSTRUCT` note on a
procfs-backed file); on the kernel path free the **local** `mappings` list
(which stayed empty — `parse_nt_file` filled `prog->mappings`) and recover
`vmcoreinfo` from `/sys` or the kallsyms fallback when the note was absent;
otherwise fail with `DRGN_ERROR_INVALID_ARGUMENT` unless an `NT_FILE` note
was seen; then discover debug files (the user-space branch passes the local,
empty, mapping list) and assemble the session, whose user-space branch
publishes the local list as `prog->mappings`. -/
def drgn_program_init_core_dump (env : InitEnv) (progMappings0 : List FileMapping) :
    CResult Session :=
  match process_notes env.is64 env.notes
      ⟨progMappings0, false, false, false, ⟨[], 0⟩⟩ with
  | .error e => .error e
  | .ub => .ub
  | .ok st =>
    let is_proc_kcore :=
      if st.have_vmcoreinfo then true
      else if st.have_nt_taskstruct then env.procfsMagic
      else false
    let localMappings : List FileMapping := []
    if st.have_vmcoreinfo || is_proc_kcore then
      match
        if st.have_vmcoreinfo then .ok st.vmcoreinfo
        else if env.haveNonZeroPhysAddr then env.sysfsVmcoreinfo
        else env.fallbackVmcoreinfo with
      | .error e => .error e
      | .ok vm =>
        match env.openKernelResult with
        | .error e => .error e
        | .ok _ =>
          match env.dwarfUpdateResult with
          | .error e => .error e
          | .ok _ => .ok ⟨true, st.progMappings, some vm⟩
    else if !st.have_nt_file then .error .invalidArgument
    else
      match open_userspace_files env.openResult localMappings false with
      | .error e => .error e
      | .ok _ =>
        match env.dwarfUpdateResult with
        | .error e => .error e
        | .ok _ => .ok ⟨false, localMappings, none⟩

/-- `drgn_program_add_cleanup` (program.c:79) pushes a cleanup action onto the
head of `prog->cleanup` (actions stand in for `(cb, arg)` pairs). -/
def addCleanup (stack : List Nat) (action : Nat) : List Nat := action :: stack

/-- The cleanup phase of `drgn_program_deinit` (program.c:68-76): the stack is
walked from the head, invoking each action once; the result is the execution
trace in order. -/
def deinitTrace (stack : List Nat) : List Nat := stack

/-! Concrete test vectors. -/

/-- The 8 little-endian bytes of a 64-bit value. -/
def u64bytes (n : Nat) : List Nat :=
  [n % 256, n / 2 ^ 8 % 256, n / 2 ^ 16 % 256, n / 2 ^ 24 % 256,
   n / 2 ^ 32 % 256, n / 2 ^ 40 % 256, n / 2 ^ 48 % 256, n / 2 ^ 56 % 256]

/-- The bytes of `"/bin/x"`. -/
def binx : List Nat := [47, 98, 105, 110, 47, 120]

/-- The bytes of `"/a"`. -/
def pathA : List Nat := [47, 97]

/-- The bytes of `"/b"`. -/
def pathB : List Nat := [47, 98]

/-- The 64-bit `NT_FILE` descriptor of spec §8 scenario 1: `count = 2`,
`page_size = 0x1000`, entries `{0x400000, 0x401000, 0}` and
`{0x401000, 0x402000, 1}`, both paths `"/bin/x\0"`. -/
def ntFileDesc64 : List Nat :=
  u64bytes 2 ++ u64bytes 0x1000 ++
    u64bytes 0x400000 ++ u64bytes 0x401000 ++ u64bytes 0 ++
    u64bytes 0x401000 ++ u64bytes 0x402000 ++ u64bytes 1 ++
    (binx ++ [0]) ++ (binx ++ [0])

/-- A 64-bit `NT_FILE` descriptor with the single entry
`{0x400000, 0x401000, 0}`, path `"/bin/x\0"`. -/
def ntFileDesc1 : List Nat :=
  u64bytes 1 ++ u64bytes 0x1000 ++
    u64bytes 0x400000 ++ u64bytes 0x401000 ++ u64bytes 0 ++ (binx ++ [0])

/-- The bytes of `"OSRELEASE=x\n"`. -/
def osreleaseLineX : List Nat := osreleaseKey ++ [120, 10]

/-- A VMCOREINFO descriptor `"OSRELEASE=x\nKERNELOFFSET=FFFFFFFFFFFFFFFF\n"`. -/
def vmDescKoFF : List Nat :=
  osreleaseLineX ++ kerneloffsetKey ++ List.replicate 16 70 ++ [10]

/-- A VMCOREINFO descriptor `"OSRELEASE=x\nKERNELOFFSET=10000000000000000\n"`
(value `2^64`, one past `ULLONG_MAX`). -/
def vmDescKo17 : List Nat :=
  osreleaseLineX ++ kerneloffsetKey ++ (49 :: List.replicate 16 48) ++ [10]

/-- The failure test on the value of a `KERNELOFFSET=` line (the buffer seen
by `strtoull` continues past the newline into `post`): `ERANGE`, no digits
consumed, or not consuming exactly up to the newline. -/
def badKoValue (v post : List Nat) : Prop :=
  (strtoull16 (v ++ 10 :: post)).2.2 = true ∨
    (strtoull16 (v ++ 10 :: post)).2.1 = 0 ∨
    (strtoull16 (v ++ 10 :: post)).2.1 ≠ v.length

instance (v post : List Nat) : Decidable (badKoValue v post) := by
  unfold badKoValue; infer_instance

/-- Note name bytes of a `"CORE"` note (`n_namesz = 5`). -/
def coreNoteName : List Nat := coreName ++ [0]

/-- Note name bytes of a `"VMCOREINFO"` note (`n_namesz = 11`). -/
def vmNoteName : List Nat := vmcoreinfoName ++ [0]

/-- A core dump carrying both a `VMCOREINFO` note (`OSRELEASE=x`) and an
`NT_FILE` note with one entry, with every external stage succeeding. -/
def kernelDumpEnv : InitEnv where
  notes := [⟨vmNoteName, 0, osreleaseLineX⟩, ⟨coreNoteName, NT_FILE, ntFileDesc1⟩]
  is64 := true
  procfsMagic := false
  haveNonZeroPhysAddr := true
  sysfsVmcoreinfo := .ok ⟨[120], 0⟩
  fallbackVmcoreinfo := .ok ⟨[120], 0⟩
  openKernelResult := .ok ()
  dwarfUpdateResult := .ok ()
  openResult := fun _ => .ok

/-- A user-space core dump: only an `NT_FILE` note with one entry, not
procfs-backed, and `drgn_dwarf_index_open` succeeding on every path. -/
def userDumpEnv : InitEnv where
  notes := [⟨coreNoteName, NT_FILE, ntFileDesc1⟩]
  is64 := true
  procfsMagic := false
  haveNonZeroPhysAddr := false
  sysfsVmcoreinfo := .ok ⟨[120], 0⟩
  fallbackVmcoreinfo := .ok ⟨[120], 0⟩
  openKernelResult := .ok ()
  dwarfUpdateResult := .ok ()
  openResult := fun _ => .ok

end Drgn

/-! Helper lemmas. -/

namespace Drgn

theorem foldl_addCleanup (acts : List Nat) :
    ∀ s : List Nat, List.foldl addCleanup s acts = acts.reverse ++ s := by
  induction acts with
  | nil => intro s; simp
  | cons a rest ih =>
    intro s
    simp only [List.foldl_cons, addCleanup, ih, List.reverse_cons, List.append_assoc,
      List.singleton_append]

theorem chain'_concat_update {R : FileMapping → FileMapping → Prop}
    (l : List FileMapping) (a a' : FileMapping)
    (hcompat : ∀ x, R x a → R x a')
    (h : List.Chain' R (l ++ [a])) : List.Chain' R (l ++ [a']) := by
  rw [List.chain'_append] at h ⊢
  exact ⟨h.1, List.chain'_singleton a', fun x hx y hy => by
    simp only [List.head?_cons, Option.mem_def, Option.some.injEq] at hy
    exact hy ▸ hcompat x (h.2.2 x hx a rfl)⟩

theorem append_file_mapping_chain (start end_ fo : Nat) (p : List Nat)
    (t : List FileMapping) (h : List.Chain' notMergeable t) :
    List.Chain' notMergeable (append_file_mapping start end_ fo p t).2 := by
  unfold append_file_mapping
  split
  · exact h
  · split
    · exact h
    · match hgl : t.getLast? with
      | some last =>
        simp only
        split
        · rename_i hmerge
          obtain ⟨l, rfl⟩ : ∃ l, t = l ++ [last] := by
            rcases List.eq_nil_or_concat t with rfl | ⟨l, b, rfl⟩
            · simp at hgl
            · rw [List.concat_eq_append, List.getLast?_concat] at hgl
              exact ⟨l, by simp [← Option.some_inj.mp hgl]⟩
          rw [List.dropLast_concat]
          exact chain'_concat_update l last _ (fun x hx => hx) h
        · rename_i hmerge
          rw [List.chain'_append]
          refine ⟨h, List.chain'_singleton _, fun x hx y hy => ?_⟩
          simp only [List.head?_cons, Option.mem_def, Option.some.injEq] at hy
          rw [hgl, Option.mem_def, Option.some.injEq] at hx
          subst hx hy
          simpa [notMergeable] using hmerge
      | none =>
        simp only
        rw [List.getLast?_eq_none_iff.mp hgl]
        exact List.chain'_singleton _

theorem applyAppendOps_chain (ops : List (Nat × Nat × Nat × List Nat)) :
    ∀ t : List FileMapping, List.Chain' notMergeable t →
      List.Chain' notMergeable (applyAppendOps ops t) := by
  induction ops with
  | nil => intro t h; exact h
  | cons op rest ih =>
    intro t h
    exact ih _ (append_file_mapping_chain op.1 op.2.1 op.2.2.1 op.2.2.2 t h)

theorem find?_eq_head?_filter {α : Type} (p : α → Bool) :
    ∀ l : List α, l.find? p = (l.filter p).head? := by
  intro l
  induction l with
  | nil => rfl
  | cons a rest ih =>
    by_cases h : p a
    · rw [List.find?_cons_of_pos _ h, List.filter_cons_of_pos h, List.head?_cons]
    · rw [List.find?_cons_of_neg _ (by simpa using h),
        List.filter_cons_of_neg (by simpa using h), ih]

theorem find?_of_filter_singleton {α : Type} {p : α → Bool} {l : List α} {a : α}
    (h : l.filter p = [a]) : l.find? p = some a := by
  rw [find?_eq_head?_filter, h, List.head?_cons]

theorem find?_of_filter_nil {α : Type} {p : α → Bool} {l : List α}
    (h : l.filter p = []) : l.find? p = none := by
  rw [find?_eq_head?_filter, h, List.head?_nil]

theorem read_c_string_loop_spec :
    ∀ (max a L : Nat) (f : Nat → Nat) (mem : Nat → Option Nat),
      (∀ i, i < L → mem (a + i) = some (f i) ∧ f i ≠ 0) →
      mem (a + L) = some 0 →
      read_c_string_loop mem a max = .ok ((List.range (min L max)).map f ++ [0]) := by
  intro max
  induction max with
  | zero => intro a L f mem _ _; simp [read_c_string_loop]
  | succ m ih =>
    intro a L f mem hbytes hnul
    match L with
    | 0 =>
      rw [Nat.add_zero] at hnul
      simp [read_c_string_loop, hnul]
    | l + 1 =>
      obtain ⟨hm0, hf0⟩ := hbytes 0 (Nat.succ_pos l)
      rw [Nat.add_zero] at hm0
      have hrec := ih (a + 1) l (fun i => f (i + 1)) mem
        (fun i hi => by
          have := hbytes (i + 1) (Nat.succ_lt_succ hi)
          rwa [show a + (i + 1) = a + 1 + i by omega] at this)
        (by rwa [show a + 1 + l = a + (l + 1) by omega])
      simp only [read_c_string_loop, hm0, hf0, if_neg hf0, hrec]
      rw [Nat.succ_min_succ, List.range_succ_eq_map]
      simp [List.map_map, Function.comp_def]

theorem splitFirst_cons_self (t : Nat) :
    ∀ (l r : List Nat), t ∉ l → splitFirst t (l ++ t :: r) = some (l, r) := by
  intro l
  induction l with
  | nil => intro r _; simp [splitFirst]
  | cons b bs ih =>
    intro r hmem
    have hb : b ≠ t := fun h => hmem (h ▸ List.mem_cons_self b bs)
    have hbs : t ∉ bs := fun h => hmem (List.mem_cons_of_mem b h)
    simp only [List.cons_append, splitFirst, if_neg hb, List.append_eq, ih r hbs]

theorem splitFirst_append {t : Nat} :
    ∀ {l l1 r : List Nat} (x : List Nat), splitFirst t l = some (l1, r) →
      splitFirst t (l ++ x) = some (l1, r ++ x) := by
  intro l
  induction l with
  | nil => intro l1 r x h; simp [splitFirst] at h
  | cons b bs ih =>
    intro l1 r x h
    by_cases hb : b = t
    · simp only [splitFirst, if_pos hb] at h
      obtain ⟨rfl, rfl⟩ : ([] : List Nat) = l1 ∧ bs = r := by
        simpa using Option.some_inj.mp h
      simp only [List.cons_append, splitFirst, if_pos hb]
      rfl
    · simp only [splitFirst, if_neg hb] at h
      match hbs : splitFirst t bs with
      | none => rw [hbs] at h; exact absurd h (by simp)
      | some (l1', r') =>
        rw [hbs] at h
        obtain ⟨rfl, rfl⟩ : b :: l1' = l1 ∧ r' = r := by
          simpa using Option.some_inj.mp h
        simp only [List.cons_append, splitFirst, if_neg hb, List.append_eq, ih x hbs]

theorem splitFirst_shape {t : Nat} :
    ∀ {l l1 r : List Nat}, splitFirst t l = some (l1, r) → l = l1 ++ t :: r := by
  intro l
  induction l with
  | nil => intro l1 r h; simp [splitFirst] at h
  | cons b bs ih =>
    intro l1 r h
    by_cases hb : b = t
    · simp only [splitFirst, if_pos hb] at h
      obtain ⟨rfl, rfl⟩ : ([] : List Nat) = l1 ∧ bs = r := by
        simpa using Option.some_inj.mp h
      simp [hb]
    · simp only [splitFirst, if_neg hb] at h
      match hbs : splitFirst t bs with
      | none => rw [hbs] at h; exact absurd h (by simp)
      | some (l1', r') =>
        rw [hbs] at h
        obtain ⟨rfl, rfl⟩ : b :: l1' = l1 ∧ r' = r := by
          simpa using Option.some_inj.mp h
        simp [ih hbs]

theorem splitFirst_of_mem {t : Nat} :
    ∀ {l : List Nat}, t ∈ l → ∃ l1 r, splitFirst t l = some (l1, r) := by
  intro l
  induction l with
  | nil => intro h; simp at h
  | cons b bs ih =>
    intro h
    by_cases hb : b = t
    · exact ⟨[], bs, by simp [splitFirst, hb]⟩
    · have : t ∈ bs := by
        rcases List.mem_cons.mp h with h' | h'
        · exact absurd h'.symm hb
        · exact h'
      obtain ⟨l1, r, hsplit⟩ := ih this
      exact ⟨b :: l1, r, by simp only [splitFirst, if_neg hb, hsplit]⟩

theorem isPrefixOf_append_self : ∀ (a b : List Nat), a.isPrefixOf (a ++ b) = true := by
  intro a
  induction a with
  | nil => intro b; simp [List.isPrefixOf]
  | cons x xs ih => intro b; simp only [List.cons_append, List.isPrefixOf_cons₂_self, ih]

theorem vmcoreinfo_loop_bad_ko_fails (v post : List Nat) (hv : 10 ∉ v)
    (hbad : badKoValue v post) :
    ∀ (fuel : Nat) (pre os : List Nat) (k : Nat),
      (pre = [] ∨ pre.getLast? = some 10) →
      (pre ++ kerneloffsetKey ++ v ++ 10 :: post).length < fuel →
      ∃ e, parse_vmcoreinfo_loop fuel (pre ++ kerneloffsetKey ++ v ++ 10 :: post) os k =
        .error e := by
  intro fuel
  induction fuel with
  | zero => intro pre os k _ hlen; omega
  | succ f ih =>
    intro pre os k hpre hlen
    rcases hpre with rfl | hlast
    · -- the KERNELOFFSET line is the first line
      have hknv : 10 ∉ kerneloffsetKey ++ v := by
        intro h
        rcases List.mem_append.mp h with h' | h'
        · revert h'; decide
        · exact hv h'
      have hsplit : splitFirst 10 ((kerneloffsetKey ++ v) ++ 10 :: post) =
          some (kerneloffsetKey ++ v, post) := splitFirst_cons_self 10 _ post hknv
      simp only [List.nil_append]
      simp only [parse_vmcoreinfo_loop]
      rw [hsplit]
      simp only
      have hnotos : osreleaseKey.isPrefixOf (kerneloffsetKey ++ v) = false := rfl
      have hko : kerneloffsetKey.isPrefixOf (kerneloffsetKey ++ v) = true :=
        isPrefixOf_append_self kerneloffsetKey v
      rw [hnotos, hko]
      simp only [Bool.false_eq_true, if_false, if_true]
      have hdrop : (kerneloffsetKey ++ v).drop kerneloffsetKey.length = v :=
        List.drop_left kerneloffsetKey v
      rw [hdrop]
      rcases hbad with h | h | h
      · rw [if_pos h]; exact ⟨.overflow, rfl⟩
      · split
        · exact ⟨.overflow, rfl⟩
        · rw [if_pos (Or.inl h)]; exact ⟨.overflow, rfl⟩
      · split
        · exact ⟨.overflow, rfl⟩
        · rw [if_pos (Or.inr h)]; exact ⟨.overflow, rfl⟩
    · -- a line of `pre` comes first
      have hmem : 10 ∈ pre := by
        match hp : pre, hlast with
        | [], hlast => simp at hlast
        | b :: bs, hlast =>
          have heq := List.getLast?_eq_getLast (b :: bs) (by simp)
          rw [heq] at hlast
          exact Option.some_inj.mp hlast ▸ List.getLast_mem (by simp)
      obtain ⟨l1, r1, hsplit1⟩ := splitFirst_of_mem hmem
      have hshape := splitFirst_shape hsplit1
      have hsplit : splitFirst 10 (pre ++ kerneloffsetKey ++ v ++ 10 :: post) =
          some (l1, r1 ++ (kerneloffsetKey ++ v ++ 10 :: post)) := by
        rw [List.append_assoc, List.append_assoc]
        exact splitFirst_append _ hsplit1
      have hr1 : r1 = [] ∨ r1.getLast? = some 10 := by
        rw [hshape] at hlast
        match r1, hlast with
        | [], _ => exact Or.inl rfl
        | c :: cs, hlast =>
          refine Or.inr ?_
          rwa [List.getLast?_append_of_ne_nil _ (by simp),
            List.getLast?_cons_cons] at hlast
      have hlen1 : (r1 ++ kerneloffsetKey ++ v ++ 10 :: post).length < f := by
        have : pre.length = l1.length + 1 + r1.length := by
          rw [hshape]; simp; omega
        simp only [List.length_append, List.length_cons] at hlen ⊢
        omega
      have hrec : ∀ os' k', ∃ e,
          parse_vmcoreinfo_loop f (r1 ++ kerneloffsetKey ++ v ++ 10 :: post) os' k' =
            .error e := by
        intro os' k'
        exact ih r1 os' k' hr1 (by simpa [List.append_assoc] using hlen1)
      simp only [parse_vmcoreinfo_loop, hsplit]
      split
      · split
        · exact ⟨.other, rfl⟩
        · simpa [List.append_assoc] using hrec (l1.drop osreleaseKey.length) k
      · split
        · split
          · exact ⟨.overflow, rfl⟩
          · split
            · exact ⟨.overflow, rfl⟩
            · simpa [List.append_assoc] using
                hrec os (strtoull16 (l1.drop kerneloffsetKey.length ++
                  10 :: (r1 ++ (kerneloffsetKey ++ v ++ 10 :: post)))).1
        · simpa [List.append_assoc] using hrec os k

theorem process_notes_no_kernel_no_file (is64 : Bool) :
    ∀ (notes : List Note) (st : NoteState),
      (∀ n ∈ notes, strncmpEq n.name vmcoreinfoName n.name.length = false) →
      (∀ n ∈ notes, strncmpEq n.name coreName n.name.length = false ∨ n.ntype ≠ NT_FILE) →
      ∃ b : Bool, process_notes is64 notes st = .ok { st with have_nt_taskstruct := b } ∧
        (b = true → st.have_nt_taskstruct = true ∨
          ∃ n ∈ notes, strncmpEq n.name coreName n.name.length = true ∧
            n.ntype = NT_TASKSTRUCT) := by
  intro notes
  induction notes with
  | nil =>
    intro st _ _
    exact ⟨st.have_nt_taskstruct, rfl, fun hb => Or.inl hb⟩
  | cons n rest ih =>
    intro st h1 h2
    have h1n := h1 n (List.mem_cons_self n rest)
    have h1r : ∀ m ∈ rest, strncmpEq m.name vmcoreinfoName m.name.length = false :=
      fun m hm => h1 m (List.mem_cons_of_mem n hm)
    have h2r : ∀ m ∈ rest, strncmpEq m.name coreName m.name.length = false ∨
        m.ntype ≠ NT_FILE :=
      fun m hm => h2 m (List.mem_cons_of_mem n hm)
    by_cases hcore : strncmpEq n.name coreName n.name.length = true
    · have hnf : n.ntype ≠ NT_FILE := by
        rcases h2 n (List.mem_cons_self n rest) with h | h
        · rw [hcore] at h; exact absurd h (by simp)
        · exact h
      by_cases hts : n.ntype = NT_TASKSTRUCT
      · obtain ⟨b, hrun, _⟩ := ih { st with have_nt_taskstruct := true } h1r h2r
        refine ⟨b, ?_, fun _ => Or.inr ⟨n, List.mem_cons_self n rest, hcore, hts⟩⟩
        simp only [process_notes, process_note, hcore, if_true, if_neg hnf, if_pos hts]
        exact hrun
      · obtain ⟨b, hrun, horigin⟩ := ih st h1r h2r
        refine ⟨b, ?_, fun hb => ?_⟩
        · simp only [process_notes, process_note, hcore, if_true, if_neg hnf, if_neg hts]
          exact hrun
        · rcases horigin hb with h | ⟨m, hm, hc, ht⟩
          · exact Or.inl h
          · exact Or.inr ⟨m, List.mem_cons_of_mem n hm, hc, ht⟩
    · have hcore' : strncmpEq n.name coreName n.name.length = false :=
        Bool.not_eq_true _ ▸ Bool.of_not_eq_true hcore
      obtain ⟨b, hrun, horigin⟩ := ih st h1r h2r
      refine ⟨b, ?_, fun hb => ?_⟩
      · simp only [process_notes, process_note, hcore', Bool.false_eq_true, if_false,
          h1n]
        exact hrun
      · rcases horigin hb with h | ⟨m, hm, hc, ht⟩
        · exact Or.inl h
        · exact Or.inr ⟨m, List.mem_cons_of_mem n hm, hc, ht⟩

/-! Claim theorems. -/

/-- Claim C1: parsing the 64-bit `NT_FILE` descriptor with `count = 2`,
`page_size = 0x1000`, entries `{0x400000, 0x401000, 0}` and
`{0x401000, 0x402000, 1}`, both with path `"/bin/x"`, yields the single
merged mapping `{0x400000, 0x402000, 0, "/bin/x"}`; and any table built by a
sequence of `append_file_mapping` operations has no two consecutive mappings
satisfying the merge condition. -/
theorem nt_file_merges_adjacent_colinear :
    parse_nt_file ntFileDesc64 true [] =
      .ok [⟨0x400000, 0x402000, 0, binx, 0⟩] ∧
    ∀ ops : List (Nat × Nat × Nat × List Nat),
      List.Chain' notMergeable (applyAppendOps ops []) := by
  exact ⟨by decide, fun ops => applyAppendOps_chain ops [] List.chain'_nil⟩

/-- Claim C4: registering cleanup actions in order and then destroying the
session runs exactly the registered actions, each as often as registered
(hence exactly once), in reverse registration order; an action never
registered does not run. -/
theorem cleanup_runs_in_reverse_registration_order (acts : List Nat) :
    deinitTrace (List.foldl addCleanup [] acts) = acts.reverse ∧
    (∀ a, (deinitTrace (List.foldl addCleanup [] acts)).count a = acts.count a) ∧
    (∀ a, a ∉ acts → a ∉ deinitTrace (List.foldl addCleanup [] acts)) := by
  have htrace : deinitTrace (List.foldl addCleanup [] acts) = acts.reverse := by
    rw [deinitTrace, foldl_addCleanup acts [], List.append_nil]
  refine ⟨htrace, fun a => ?_, fun a ha => ?_⟩
  · rw [htrace, List.count_reverse]
  · rw [htrace, List.mem_reverse]; exact ha

/-- Witness for C4 at the concrete registration sequence `[1, 2, 3]` and the
unregistered action `4`. -/
theorem cleanup_runs_in_reverse_registration_order_w :
    deinitTrace (List.foldl addCleanup [] [1, 2, 3]) = [3, 2, 1] ∧
    4 ∉ deinitTrace (List.foldl addCleanup [] [1, 2, 3]) :=
  ⟨(cleanup_runs_in_reverse_registration_order [1, 2, 3]).1,
   (cleanup_runs_in_reverse_registration_order [1, 2, 3]).2.2 4 (by decide)⟩

/-- Claim C5 (code bug): on an `NT_FILE` entry with `vaddr_start == vaddr_end`
the code takes `append_file_mapping`'s `NULL` return to mean "appended" and
overwrites the last existing mapping's path with the dropped entry's path
(here `"/a"` becomes `"/b"`); on an empty table it indexes
`(*mappings)[SIZE_MAX]`, which is undefined behavior.  The claim (table left
unchanged, last entry's path included) fails. -/
theorem zero_length_entry_clobbers_last_path :
    nt_file_step 0x3000 0x3000 7 pathB [⟨0x1000, 0x2000, 0, pathA, 0⟩] =
      .ok [⟨0x1000, 0x2000, 0, pathB, 0⟩] ∧
    nt_file_step 0x3000 0x3000 7 pathB [] = .ub := by decide

/-- Counterexample to claim C6 as stated: an entry with
`vaddr_start > vaddr_end` makes `append_file_mapping` fail with
`DRGN_ERROR_OTHER` ("file memory mapping has negative length"), not with the
`ELF_FORMAT` kind the claim names. -/
theorem negative_length_error_is_other_cx :
    append_file_mapping 2 1 0 pathB [] = (some DrgnError.other, []) ∧
    DrgnError.other ≠ DrgnError.elfFormat := by decide

/-- Claim C6 (amended): for every `NT_FILE` entry with
`vaddr_start > vaddr_end`, `append_file_mapping` fails with an error of kind
`DRGN_ERROR_OTHER` and the mapping table is not extended. -/
theorem negative_length_entry_fails (start end_ fo : Nat) (p : List Nat)
    (t : List FileMapping) (h : end_ < start) :
    append_file_mapping start end_ fo p t = (some .other, t) := by
  unfold append_file_mapping
  rw [if_pos h]

/-- Witness for C6 (amended) at `start = 5 > end = 3`. -/
theorem negative_length_entry_fails_w :
    append_file_mapping 5 3 0 pathA [] = (some .other, []) :=
  negative_length_entry_fails 5 3 0 pathA [] (by decide)

/-- Claim C8: for an `ET_EXEC` (vmlinux) debug file the kernel relocation
hook succeeds, sets the symbol's address to its DWARF address plus the KASLR
offset (in `uint64_t`), and leaves every other field of the symbol
unchanged. -/
theorem kernel_reloc_vmlinux_adds_kaslr (kaslr : Nat)
    (moduleReloc : DrgnSymbol → Except DrgnError DrgnSymbol) (sym : DrgnSymbol) :
    kernel_relocation_hook ET_EXEC kaslr moduleReloc sym =
      .ok { sym with address := (sym.address + kaslr) % U64 } ∧
    ∀ sym', kernel_relocation_hook ET_EXEC kaslr moduleReloc sym = .ok sym' →
      sym'.address = (sym.address + kaslr) % U64 ∧ sym'.name = sym.name ∧
      sym'.is_enumerator = sym.is_enumerator ∧
      sym'.little_endian = sym.little_endian ∧ sym'.uvalue = sym.uvalue := by
  have heq : kernel_relocation_hook ET_EXEC kaslr moduleReloc sym =
      .ok { sym with address := (sym.address + kaslr) % U64 } := by
    unfold kernel_relocation_hook
    rw [if_pos rfl]
  refine ⟨heq, fun sym' h => ?_⟩
  rw [heq] at h
  cases h
  exact ⟨rfl, rfl, rfl, rfl, rfl⟩

/-- Claim C7: a core dump with no `VMCOREINFO` note, no `CORE`/`NT_FILE`
note, and not detected as `/proc/kcore` (no `CORE`/`NT_TASKSTRUCT` note, or a
backing file without the procfs magic) makes
`drgn_program_init_core_dump` fail with `DRGN_ERROR_INVALID_ARGUMENT`; the
error return means no session is published. -/
theorem core_dump_without_metadata_invalid_argument
    (env : InitEnv) (prog0 : List FileMapping)
    (h1 : ∀ n ∈ env.notes, strncmpEq n.name vmcoreinfoName n.name.length = false)
    (h2 : ∀ n ∈ env.notes,
      strncmpEq n.name coreName n.name.length = false ∨ n.ntype ≠ NT_FILE)
    (h3 : env.procfsMagic = false ∨
      ∀ n ∈ env.notes,
        strncmpEq n.name coreName n.name.length = false ∨ n.ntype ≠ NT_TASKSTRUCT) :
    drgn_program_init_core_dump env prog0 = .error .invalidArgument := by
  obtain ⟨b, hrun, horigin⟩ := process_notes_no_kernel_no_file env.is64 env.notes
    ⟨prog0, false, false, false, ⟨[], 0⟩⟩ h1 h2
  cases b with
  | false =>
    simp only [drgn_program_init_core_dump, hrun]
    simp
  | true =>
    have hpm : env.procfsMagic = false := by
      rcases horigin rfl with h | ⟨n, hn, hc, ht⟩
      · exact absurd h (by simp)
      · rcases h3 with h3 | h3
        · exact h3
        · rcases h3 n hn with h | h
          · rw [hc] at h; exact absurd h (by simp)
          · exact absurd ht h
    simp only [drgn_program_init_core_dump, hrun]
    simp [hpm]

/-- Witness for C7: a core dump whose only note is named `"X"` (matching
neither `"CORE"` nor `"VMCOREINFO"`), on a non-procfs file. -/
theorem core_dump_without_metadata_invalid_argument_w :
    drgn_program_init_core_dump
      ⟨[⟨[88, 0], 1, []⟩], true, false, false, .ok ⟨[120], 0⟩, .ok ⟨[120], 0⟩,
        .ok (), .ok (), fun _ => .ok⟩ [] = .error .invalidArgument :=
  core_dump_without_metadata_invalid_argument _ []
    (by decide) (by decide) (Or.inl rfl)

/-- Claim C10 (code bug): because `parse_nt_file` is called on
`&prog->mappings` while every later step handles the untouched local
`mappings` list, (1) a successful kernel bootstrap (VMCOREINFO note present)
publishes a session whose `prog->mappings` still holds the parsed `NT_FILE`
mapping — the claim's "empty mapping table" fails — and (2) a user-space
bootstrap hands the empty local list to debug-file discovery and fails with
`MISSING_DEBUG` even though the mapped path opens fine, so no successful
user-space bootstrap retains the mappings. -/
theorem kernel_session_retains_nt_file_mappings :
    drgn_program_init_core_dump kernelDumpEnv [] =
      .ok ⟨true, [⟨0x400000, 0x401000, 0, binx, 0⟩], some ⟨[120], 0⟩⟩ ∧
    drgn_program_init_core_dump userDumpEnv [] = .error .missingDebug := by decide

/-- Counterexample to claim C3 as stated: the descriptor
`"OSRELEASE=x\nKERNELOFFSET=FFFFFFFFFFFFFFFF\n"` parses successfully (the
value is exactly `ULLONG_MAX = 2^64 - 1`, which `strtoull` accepts without
`ERANGE`), yielding `kaslr_offset = 2^64 - 1` rather than an `OVERFLOW`
error. -/
theorem kerneloffset_ffff_succeeds_cx :
    parse_vmcoreinfo vmDescKoFF = .ok ⟨[120], U64 - 1⟩ ∧
    ∀ e, parse_vmcoreinfo vmDescKoFF ≠ .error e := by
  have h : parse_vmcoreinfo vmDescKoFF = .ok ⟨[120], U64 - 1⟩ := by decide
  exact ⟨h, fun e he => Except.noConfusion (h ▸ he)⟩

/-- Claim C3 (amended): a `KERNELOFFSET` value that `strtoull` base 16 cannot
convert consuming exactly the value up to the newline, or that overflows
`ULLONG_MAX`, makes `parse_vmcoreinfo` fail (the line may sit anywhere after
newline-terminated lines); concretely `KERNELOFFSET=10000000000000000` (one
past `ULLONG_MAX`) fails with `OVERFLOW`, while
`KERNELOFFSET=FFFFFFFFFFFFFFFF` is accepted with `kaslr_offset = 2^64 - 1`. -/
theorem kerneloffset_bad_value_fails :
    (∀ pre v post : List Nat,
      (pre = [] ∨ pre.getLast? = some 10) → 10 ∉ v → badKoValue v post →
      ∃ e, parse_vmcoreinfo (pre ++ kerneloffsetKey ++ v ++ 10 :: post) = .error e) ∧
    parse_vmcoreinfo vmDescKo17 = .error .overflow ∧
    parse_vmcoreinfo vmDescKoFF = .ok ⟨[120], U64 - 1⟩ := by
  refine ⟨fun pre v post hpre hv hbad => ?_, by decide, by decide⟩
  exact vmcoreinfo_loop_bad_ko_fails v post hv hbad _ pre [] 0 hpre
    (Nat.lt_succ_self _)

/-- Witness for C3 (amended) at `pre = "OSRELEASE=x\n"`, value `"G"` (not a
hex digit, so `strtoull` consumes nothing), empty tail. -/
theorem kerneloffset_bad_value_fails_w :
    ∃ e, parse_vmcoreinfo (osreleaseLineX ++ kerneloffsetKey ++ [71] ++ 10 :: []) =
      .error e :=
  kerneloffset_bad_value_fails.1 osreleaseLineX [71] []
    (Or.inr (by decide)) (by decide) (by decide)

/-- Claim C2: when `p` is the containing `PT_LOAD` header of the symbol's ELF
(stated as: the unique header passing the segment test, matching the code's
first-match scan) and `m` the mapping of that ELF containing the file offset
`p.p_offset + addr - p.p_vaddr`, the user-space hook relocates to
`m.start + file_offset - m.file_offset` (in `uint64_t`); with no containing
`PT_LOAD`, or no containing mapping, it fails with `LOOKUP`; concretely,
mapping `{0x7f0000, 0x7f3000, 0}` over `PT_LOAD {0, 0x1000, 0x3000}` sends
DWARF address `0x2100` to `0x7f1100`. -/
theorem userspace_reloc_translates_via_mapping :
    (∀ (phdrs : List GPhdr) (mappings : List FileMapping) (elf : Nat)
        (sym : DrgnSymbol) (p : GPhdr) (m : FileMapping),
      phdrs.filter (phdrContains sym.address) = [p] →
      mappings.filter (mappingContains elf (loadFileOffset p sym.address)) = [m] →
      userspace_relocation_hook phdrs mappings elf sym =
        .ok { sym with address :=
          (m.start + (loadFileOffset p sym.address - m.file_offset)) % U64 }) ∧
    (∀ (phdrs : List GPhdr) (mappings : List FileMapping) (elf : Nat)
        (sym : DrgnSymbol),
      phdrs.filter (phdrContains sym.address) = [] →
      userspace_relocation_hook phdrs mappings elf sym = .error .lookup) ∧
    (∀ (phdrs : List GPhdr) (mappings : List FileMapping) (elf : Nat)
        (sym : DrgnSymbol) (p : GPhdr),
      phdrs.filter (phdrContains sym.address) = [p] →
      mappings.filter (mappingContains elf (loadFileOffset p sym.address)) = [] →
      userspace_relocation_hook phdrs mappings elf sym = .error .lookup) ∧
    userspace_relocation_hook [⟨PT_LOAD, 0, 0x1000, 0x3000⟩]
        [⟨0x7f0000, 0x7f3000, 0, binx, 1⟩] 1 ⟨[], 0x2100, false, true, 0⟩ =
      .ok ⟨[], 0x7f1100, false, true, 0⟩ := by
  refine ⟨fun phdrs mappings elf sym p m hp hm => ?_,
    fun phdrs mappings elf sym hp => ?_,
    fun phdrs mappings elf sym p hp hm => ?_, by decide⟩
  · unfold userspace_relocation_hook
    rw [find?_of_filter_singleton hp]
    simp only
    rw [find?_of_filter_singleton hm]
  · unfold userspace_relocation_hook
    rw [find?_of_filter_nil hp]
  · unfold userspace_relocation_hook
    rw [find?_of_filter_singleton hp]
    simp only
    rw [find?_of_filter_nil hm]

/-- Witness for C2 at the spec's concrete scenario and at empty header and
mapping tables. -/
theorem userspace_reloc_translates_via_mapping_w :
    userspace_relocation_hook [⟨PT_LOAD, 0, 0x1000, 0x3000⟩]
        [⟨0x7f0000, 0x7f3000, 0, binx, 1⟩] 1 ⟨[], 0x2100, false, true, 0⟩ =
      .ok ⟨[], (0x7f0000 + (loadFileOffset ⟨PT_LOAD, 0, 0x1000, 0x3000⟩ 0x2100 - 0)) % U64,
        false, true, 0⟩ ∧
    userspace_relocation_hook [] [] 1 ⟨[], 0x2100, false, true, 0⟩ = .error .lookup ∧
    userspace_relocation_hook [⟨PT_LOAD, 0, 0x1000, 0x3000⟩] [] 1
        ⟨[], 0x2100, false, true, 0⟩ = .error .lookup :=
  ⟨userspace_reloc_translates_via_mapping.1 _ _ 1 _ ⟨PT_LOAD, 0, 0x1000, 0x3000⟩
     ⟨0x7f0000, 0x7f3000, 0, binx, 1⟩ (by decide) (by decide),
   userspace_reloc_translates_via_mapping.2.1 _ _ 1 _ (by decide),
   userspace_reloc_translates_via_mapping.2.2.1 _ _ 1 _ ⟨PT_LOAD, 0, 0x1000, 0x3000⟩
     (by decide) (by decide)⟩

/-- Claim C9: when target memory from `a` holds `L` non-NUL bytes and then a
NUL (all reads succeeding), `drgn_program_read_c_string a max_size` returns
the buffer of the first `min L max_size` bytes followed by a terminating NUL:
a NUL-terminated string of length `min L max_size` (in particular, exactly
`max_size` bytes plus NUL when no NUL occurs within `max_size` bytes). -/
theorem read_c_string_returns_min_len (mem : Nat → Option Nat) (a L max_size : Nat)
    (f : Nat → Nat)
    (hbytes : ∀ i, i < L → mem (a + i) = some (f i) ∧ f i ≠ 0)
    (hnul : mem (a + L) = some 0) :
    drgn_program_read_c_string mem a max_size =
      .ok ((List.range (min L max_size)).map f ++ [0]) ∧
    ((List.range (min L max_size)).map f ++ [0]).length = min L max_size + 1 ∧
    (∀ b ∈ (List.range (min L max_size)).map f, b ≠ 0) := by
  refine ⟨read_c_string_loop_spec max_size a L f mem hbytes hnul, by simp, ?_⟩
  intro b hb
  rw [List.mem_map] at hb
  obtain ⟨i, hi, rfl⟩ := hb
  rw [List.mem_range] at hi
  exact (hbytes i (lt_of_lt_of_le hi (Nat.min_le_left L max_size))).2

/-- Witness for C9: the bytes `"Hi\0"` at address 0 read with `max_size = 5`
(NUL within bounds) and `max_size = 1` (truncated at the bound). -/
theorem read_c_string_returns_min_len_w :
    drgn_program_read_c_string (fun i => some (List.getD [72, 105] i 0)) 0 5 =
      .ok [72, 105, 0] ∧
    drgn_program_read_c_string (fun i => some (List.getD [72, 105] i 0)) 0 1 =
      .ok [72, 0] := by
  have h5 := read_c_string_returns_min_len (fun i => some (List.getD [72, 105] i 0))
    0 2 5 (fun i => List.getD [72, 105] i 0) (by decide) (by decide)
  have h1 := read_c_string_returns_min_len (fun i => some (List.getD [72, 105] i 0))
    0 2 1 (fun i => List.getD [72, 105] i 0) (by decide) (by decide)
  exact ⟨by rw [h5.1]; decide, by rw [h1.1]; decide⟩

/-- Witness for C8 at a concrete symbol and KASLR offset. -/
theorem kernel_reloc_vmlinux_adds_kaslr_w :
    kernel_relocation_hook ET_EXEC 0x12000000 (fun s => .ok s)
        ⟨[95], 0xffffffff81000000, false, true, 0⟩ =
      .ok ⟨[95], (0xffffffff81000000 + 0x12000000) % U64, false, true, 0⟩ :=
  (kernel_reloc_vmlinux_adds_kaslr 0x12000000 (fun s => .ok s)
    ⟨[95], 0xffffffff81000000, false, true, 0⟩).1

end Drgn
